import Mathlib

/-!
Verification development for the `gas-date-fns` calendar-arithmetic library
(`src/main.ts`, a port of a subset of date-fns).

The embedding models ECMAScript `Date` semantics as used by the source:

* a `Date`'s time value is either NaN (`Option.none`) or an integer count of
  milliseconds since the Unix epoch (`Option.some t`), valid only when
  `|t| ≤ 8.64e15` (the ECMAScript `TimeClip` range);
* calendar fields (year, 0-based month, day-of-month, weekday, time-of-day
  components) are derived from the time value with the proleptic Gregorian
  calendar; local time is modelled with a zero UTC offset (a host running in
  UTC), matching the source's use of the local-time `Date` accessors;
* JS numbers that can reach the library's numeric paths are modelled by
  `JSNum` (NaN, the two infinities, or a finite rational);
* `NaN` propagation through arithmetic is modelled by `Option.none`
  propagation, and JS comparisons involving NaN are `false`.

The source functions (`toDate`, `toInteger`, `differenceInMilliseconds`,
`differenceInMinutes`, `getMonth`, `getDay`, `getDaysInMonth`,
`isWithinInterval`, `startOfMonth`, `endOfMonth`, `addMonths`) are translated
one-to-one below in the `DateFns` namespace.
-/

namespace GasDateFns

/-! Part 1: JS numbers and the integer coercer -/

/-- JS numbers as far as the library's numeric paths can observe them:
NaN, the infinities, or a finite rational value. -/
inductive JSNum where
  | nan
  | posInf
  | negInf
  | fin (q : ℚ)
deriving DecidableEq

/-- Floor of a rational as an integer (`q.num / q.den` with floor division,
which equals `⌊q⌋`); kernel-computable. -/
def ratFloor (q : ℚ) : Int := q.num / (q.den : Int)

/-- Ceiling of a rational as an integer; kernel-computable. -/
def ratCeil (q : ℚ) : Int := -ratFloor (-q)

/-- JS `Math.floor`: identity on NaN and the infinities. -/
def jsFloor : JSNum → JSNum
  | .fin q => .fin (ratFloor q : ℚ)
  | x => x

/-- JS `Math.ceil`: identity on NaN and the infinities. -/
def jsCeil : JSNum → JSNum
  | .fin q => .fin (ratCeil q : ℚ)
  | x => x

/-- JS `isNaN` on a number. -/
def jsIsNaN : JSNum → Bool
  | .nan => true
  | _ => false

/-- JS `number < 0`. -/
def jsNegative : JSNum → Bool
  | .negInf => true
  | .fin q => decide (q < 0)
  | _ => false

/-- Primitive values that can be passed to `toInteger`
(`number | boolean | null` in the source's signature). -/
inductive JSPrim where
  | null
  | bool (b : Bool)
  | num (x : JSNum)
deriving DecidableEq

/-- Translation of `toInteger` (src/main.ts:86-98): `null`/`true`/`false`
give NaN; a NaN number is returned unchanged; otherwise `Math.ceil` for
negative values and `Math.floor` otherwise.  (`Number(x)` is the identity on
numbers, the only remaining case.) -/
def toInteger (dirtyNumber : JSPrim) : JSNum :=
  match dirtyNumber with
  | .null => .nan
  | .bool _ => .nan
  | .num number =>
    if jsIsNaN number then number
    else if jsNegative number then jsCeil number else jsFloor number

/-! Part 2: Gregorian calendar core

Conversion between epoch day numbers and civil `(year, month 1..12, day)`
triples, using the standard era decomposition (eras of 146097 days = 400
March-based years).  All divisions are by positive constants, where Lean's
Euclidean `/` and `%` on `Int` agree with the floor division and
non-negative modulo used by the ECMAScript date algorithms. -/

/-- Gregorian leap-year predicate (on the calendar year). -/
def isLeapYear (y : Int) : Prop :=
  y % 4 = 0 ∧ (y % 100 ≠ 0 ∨ y % 400 = 0)

instance (y : Int) : Decidable (isLeapYear y) :=
  inferInstanceAs (Decidable (_ ∧ _))

/-- Number of days in 1-based month `m` of year `y`. -/
def daysInMonthYM (y m : Int) : Int :=
  if m = 2 then (if isLeapYear y then 29 else 28)
  else if m = 4 ∨ m = 6 ∨ m = 9 ∨ m = 11 then 30
  else 31

/-- Days before March-based year-of-era `y` within an era
(`y ∈ [0, 400]`; the `y/400` term is constant within an era). -/
def cumDoe (y : Int) : Int := 365 * y + y / 4 - y / 100

/-- Days before March-based month `mp ∈ [0, 11]` within a March-based year
(Mar = 0, ..., Jan = 10, Feb = 11). -/
def monthDays (mp : Int) : Int := (153 * mp + 2) / 5

/-- Epoch day number of civil date `(y, m, d)` with 1-based month `m ∈ [1,12]`
(day 0 = 1970-01-01). -/
def daysFromCivil (y m d : Int) : Int :=
  let yAdj := if m ≤ 2 then y - 1 else y
  let era := yAdj / 400
  let yoe := yAdj - era * 400
  let mp := if m ≤ 2 then m + 9 else m - 3
  era * 146097 + cumDoe yoe + monthDays mp + d - 1 - 719468

/-- March-based year-of-era of a day-of-era `doe ∈ [0, 146097)`: a first
guess `doe / 365` overestimates by at most one and is corrected by a
comparison with `cumDoe` (with the guess clamped to 399 to absorb the
leap day that closes each era). -/
def yoeOfDoe (doe : Int) : Int :=
  let g := doe / 365
  let g := if 399 < g then 399 else g
  if doe < cumDoe g then g - 1 else g

/-- Month (1-based) and day of a March-based day-of-year `doy ∈ [0, 365]`. -/
def civilOfDoy (doy : Int) : Int × Int :=
  let mp := (5 * doy + 2) / 153
  let d := doy - monthDays mp + 1
  let m := if mp < 10 then mp + 3 else mp - 9
  (m, d)

/-- Civil date of an era number and a day-of-era `doe ∈ [0, 146097)`. -/
def civilOfDoe (era doe : Int) : Int × Int × Int :=
  let yoe := yoeOfDoe doe
  let md := civilOfDoy (doe - cumDoe yoe)
  (yoe + era * 400 + (if md.1 ≤ 2 then 1 else 0), md.1, md.2)

/-- Civil date `(year, month 1..12, day)` of an epoch day number. -/
def civilFromDays (z : Int) : Int × Int × Int :=
  civilOfDoe ((z + 719468) / 146097)
    (z + 719468 - (z + 719468) / 146097 * 146097)

/-! Part 3: JS Date objects -/

/-- A JS `Date`'s time value: `none` is NaN (an Invalid Date), `some t` is an
integer epoch-millisecond value. -/
abbrev JSDate := Option Int

namespace JSDate

/-- The ECMAScript `TimeClip` range bound: 8.64e15 milliseconds. -/
def maxTime : Int := 8640000000000000

/-- ECMAScript `TimeClip`: time values of magnitude above 8.64e15 ms become
NaN. -/
def timeClip (t : Int) : JSDate :=
  if t.natAbs ≤ 8640000000000000 then some t else none

/-- Epoch day number of a time value (ECMAScript `Day(t)`). -/
def jsDay (t : Int) : Int := t / 86400000

/-- Millisecond of day of a time value (ECMAScript `TimeWithinDay(t)`,
always in `[0, 86400000)`). -/
def timeWithinDay (t : Int) : Int := t % 86400000

/-- ECMAScript `MakeDay(year, month, date)` with a 0-based, unbounded month:
the month overflows into the year, and the date counts (1-based, possibly
out of range, so e.g. 0 backs up to the last day of the previous month). -/
def makeDay (y m d : Int) : Int :=
  daysFromCivil (y + m / 12) (m % 12 + 1) 1 + (d - 1)

/-- ECMAScript `MakeDate(day, time)`. -/
def makeDateValue (day tod : Int) : Int := day * 86400000 + tod

/-- ECMAScript `MakeTime` (hour, minute, second, millisecond). -/
def makeTime (h m s ms : Int) : Int :=
  h * 3600000 + m * 60000 + s * 1000 + ms

/-- getFullYear of a valid time value. -/
def getFullYearT (t : Int) : Int := (civilFromDays (jsDay t)).1

/-- getMonth (0-based) of a valid time value. -/
def getMonthT (t : Int) : Int := (civilFromDays (jsDay t)).2.1 - 1

/-- getDate (day of month) of a valid time value. -/
def getDateT (t : Int) : Int := (civilFromDays (jsDay t)).2.2

/-- getDay (weekday, 0 = Sunday) of a valid time value; epoch day 0 was a
Thursday (= 4). -/
def getDayT (t : Int) : Int := (jsDay t + 4) % 7

/-- getHours of a valid time value. -/
def getHoursT (t : Int) : Int := timeWithinDay t / 3600000

/-- getMinutes of a valid time value. -/
def getMinutesT (t : Int) : Int := timeWithinDay t / 60000 % 60

/-- getSeconds of a valid time value. -/
def getSecondsT (t : Int) : Int := timeWithinDay t / 1000 % 60

/-- getMilliseconds of a valid time value. -/
def getMillisecondsT (t : Int) : Int := timeWithinDay t % 1000

/-- Date.prototype.getTime: NaN on an Invalid Date. -/
def getTime (d : JSDate) : Option Int := d

/-- Date.prototype.getFullYear: NaN on an Invalid Date. -/
def getFullYear (d : JSDate) : Option Int := d.map getFullYearT

/-- Date.prototype.getMonth: NaN on an Invalid Date. -/
def getMonth (d : JSDate) : Option Int := d.map getMonthT

/-- Date.prototype.getDate: NaN on an Invalid Date. -/
def getDate (d : JSDate) : Option Int := d.map getDateT

/-- Date.prototype.getDay: NaN on an Invalid Date. -/
def getDay (d : JSDate) : Option Int := d.map getDayT

/-- Date.prototype.setFullYear(year, month, date): an Invalid Date's time
value is first replaced by +0 (the one reviving setter), then the new day
is assembled and clipped; a NaN argument gives an Invalid Date. -/
def setFullYear (dte : JSDate) (y m d : Option Int) : JSDate :=
  let t : Int := dte.getD 0
  match y, m, d with
  | some y, some m, some d =>
    timeClip (makeDateValue (makeDay y m d) (timeWithinDay t))
  | _, _, _ => none

/-- Date.prototype.setMonth(month, date): NaN time value or NaN argument
gives an Invalid Date; keeps the year and the time of day. -/
def setMonth (dte : JSDate) (m d : Option Int) : JSDate :=
  match dte, m, d with
  | some t, some m, some d =>
    timeClip (makeDateValue (makeDay (getFullYearT t) m d) (timeWithinDay t))
  | _, _, _ => none

/-- Date.prototype.setDate(date): NaN time value or NaN argument gives an
Invalid Date; keeps the year, month and time of day. -/
def setDate (dte : JSDate) (d : Option Int) : JSDate :=
  match dte, d with
  | some t, some d =>
    timeClip (makeDateValue (makeDay (getFullYearT t) (getMonthT t) d)
      (timeWithinDay t))
  | _, _ => none

/-- Date.prototype.setHours(h, min, s, ms): NaN time value or NaN argument
gives an Invalid Date; keeps the day. -/
def setHours (dte : JSDate) (h m s ms : Option Int) : JSDate :=
  match dte, h, m, s, ms with
  | some t, some h, some m, some s, some ms =>
    timeClip (makeDateValue (jsDay t) (makeTime h m s ms))
  | _, _, _, _, _ => none

end JSDate

/-- JS `a <= b` on possibly-NaN integers: false whenever either side is
NaN. -/
def jsLE (a b : Option Int) : Bool :=
  match a, b with
  | some x, some y => decide (x ≤ y)
  | _, _ => false

/-- JS `a >= b` on possibly-NaN integers: false whenever either side is
NaN. -/
def jsGE (a b : Option Int) : Bool :=
  match a, b with
  | some x, some y => decide (y ≤ x)
  | _, _ => false

/-! Part 4: inputs accepted by the library -/

/-- The inputs the library's `Date | number` parameters can receive at
runtime: a `Date` instance, a number, a string, or anything else. -/
inductive DateInput where
  | date (d : JSDate)
  | num (x : JSNum)
  | str (s : String)
  | other

/-- Construction `new Date(n)` from a number: `TimeClip` after truncating
toward zero; NaN and the infinities give an Invalid Date. -/
def newDateFromNum : JSNum → JSDate
  | .fin q =>
    if |q| ≤ (8640000000000000 : ℚ) then
      some (if q < 0 then ratCeil q else ratFloor q)
    else none
  | _ => none

namespace DateFns

open JSDate

/-- Translation of `toDate` (src/main.ts:55-84): a `Date` is cloned through
its time value, a number is treated as a timestamp, and anything else
(including strings, whose console warning is a side effect outside the
returned value) gives an Invalid Date. -/
def toDate : DateInput → JSDate
  | .date d => d.bind timeClip
  | .num x => newDateFromNum x
  | .str _ => none
  | .other => none

/-- Translation of `differenceInMilliseconds` (src/main.ts:126-135):
`toDate` both arguments and subtract the time values (NaN-propagating). -/
def differenceInMilliseconds (dirtyDateLeft dirtyDateRight : DateInput) :
    Option Int :=
  match toDate dirtyDateLeft, toDate dirtyDateRight with
  | some l, some r => some (l - r)
  | _, _ => none

/-- Translation of `differenceInMinutes` (src/main.ts:170-180): divide the
millisecond difference by 60000 as a JS number and round with
`diff > 0 ? Math.floor(diff) : Math.ceil(diff)`. -/
def differenceInMinutes (dirtyDateLeft dirtyDateRight : DateInput) :
    Option Int :=
  match differenceInMilliseconds dirtyDateLeft dirtyDateRight with
  | some ms =>
    let diff : ℚ := (ms : ℚ) / 60000
    some (if 0 < diff then ratFloor diff else ratCeil diff)
  | none => none

/-- Translation of `getMonth` (src/main.ts:203-209). -/
def getMonth (dirtyDate : DateInput) : Option Int :=
  JSDate.getMonth (toDate dirtyDate)

/-- Translation of `getDay` (src/main.ts:357-363). -/
def getDay (dirtyDate : DateInput) : Option Int :=
  JSDate.getDay (toDate dirtyDate)

/-- Translation of `getDaysInMonth` (src/main.ts:324-334): build the day-0
date of the following month on a fresh `new Date(0)` and read its
day-of-month. -/
def getDaysInMonth (dirtyDate : DateInput) : Option Int :=
  let date := toDate dirtyDate
  let year := JSDate.getFullYear date
  let monthIndex := JSDate.getMonth date
  let lastDayOfMonth : JSDate := some 0
  let lastDayOfMonth :=
    JSDate.setFullYear lastDayOfMonth year (monthIndex.map (· + 1)) (some 0)
  let lastDayOfMonth :=
    JSDate.setHours lastDayOfMonth (some 0) (some 0) (some 0) (some 0)
  JSDate.getDate lastDayOfMonth

/-- Translation of `isBefore` (src/main.ts:387-396). -/
def isBefore (dirtyDate dirtyDateToCompare : DateInput) : Bool :=
  match toDate dirtyDate, toDate dirtyDateToCompare with
  | some a, some b => decide (a < b)
  | _, _ => false

/-- An interval as received by `isWithinInterval`. -/
structure Interval where
  start : DateInput
  «end» : DateInput

/-- Translation of `isWithinInterval` (src/main.ts:284-301): throws a
`RangeError` (modelled as `Except.error`) unless `startTime <= endTime`
holds as a JS comparison (so a NaN endpoint also throws); otherwise
returns `time >= startTime && time <= endTime`. -/
def isWithinInterval (dirtyDate : DateInput) (dirtyInterval : Interval) :
    Except String Bool :=
  let time := JSDate.getTime (toDate dirtyDate)
  let startTime := JSDate.getTime (toDate dirtyInterval.start)
  let endTime := JSDate.getTime (toDate dirtyInterval.«end»)
  if !(jsLE startTime endTime) then .error "Invalid interval"
  else .ok (jsGE time startTime && jsLE time endTime)

/-- Translation of `startOfMonth` (src/main.ts:420-427). -/
def startOfMonth (dirtyDate : DateInput) : JSDate :=
  let date := toDate dirtyDate
  let date := JSDate.setDate date (some 1)
  JSDate.setHours date (some 0) (some 0) (some 0) (some 0)

/-- Translation of `endOfMonth` (src/main.ts:451-459). -/
def endOfMonth (dirtyDate : DateInput) : JSDate :=
  let date := toDate dirtyDate
  let month := JSDate.getMonth date
  let date :=
    JSDate.setFullYear date (JSDate.getFullYear date) (month.map (· + 1))
      (some 0)
  JSDate.setHours date (some 23) (some 59) (some 59) (some 999)

/-- Translation of `addMonths` (src/main.ts:483-527): NaN amount gives an
Invalid Date; amount 0 returns the (cloned) date unchanged; otherwise move
to day 0 of the month after the target month and either return that
end-of-month date (when the original day-of-month does not fit) or set the
resolved year/month with the original day on the original date.  An
infinite coerced amount is modelled as a NaN month argument (`m + ∞ + 1`
makes `MakeDay` return NaN in ECMAScript). -/
def addMonths (dirtyDate : DateInput) (dirtyAmount : JSPrim) : JSDate :=
  let date := toDate dirtyDate
  let amount := toInteger dirtyAmount
  if jsIsNaN amount then none
  else if amount = JSNum.fin 0 then date
  else
    let amountInt : Option Int :=
      match amount with
      | .fin q => some (ratFloor q)
      | _ => none
    let dayOfMonth := JSDate.getDate date
    let endOfDesiredMonth :=
      JSDate.setMonth date
        ((JSDate.getMonth date).bind fun m =>
          amountInt.map fun a => m + a + 1)
        (some 0)
    let daysInMonth := JSDate.getDate endOfDesiredMonth
    if jsGE dayOfMonth daysInMonth then endOfDesiredMonth
    else
      JSDate.setFullYear date (JSDate.getFullYear endOfDesiredMonth)
        (JSDate.getMonth endOfDesiredMonth) dayOfMonth

end DateFns

/-! Part 5: calendar lemmas, the civil/day round trip -/

set_option maxHeartbeats 1000000

/-- Each month has between 28 and 31 days. -/
theorem daysInMonthYM_bounds (y m : Int) :
    28 ≤ daysInMonthYM y m ∧ daysInMonthYM y m ≤ 31 := by
  unfold daysInMonthYM; split_ifs <;> omega

/-- Cumulative day counts grow with the year-of-era. -/
theorem cumDoe_mono (a b : Int) (_h0 : 0 ≤ a) (hab : a ≤ b) :
    cumDoe a ≤ cumDoe b := by
  simp only [cumDoe]; omega

/-- The year-of-era finder returns the unique year whose cumulative day
range contains `doe`. -/
theorem yoeOfDoe_eq (doe Y : Int) (h0 : 0 ≤ Y) (h1 : Y ≤ 399)
    (hlo : cumDoe Y ≤ doe) (hhi : Y ≤ 398 → doe < cumDoe (Y + 1))
    (hmax : doe < 146097) : yoeOfDoe doe = Y := by
  have hg0 : Y ≤ doe / 365 := by simp only [cumDoe] at hlo; omega
  simp only [yoeOfDoe]
  rcases le_or_lt Y 398 with hc | hc
  · have hhi' := hhi hc
    have hgup : doe / 365 ≤ Y + 1 := by simp only [cumDoe] at hhi'; omega
    have hclamp : (if 399 < doe / 365 then 399 else doe / 365) = doe / 365 := by
      split_ifs <;> omega
    rw [hclamp]
    split_ifs with hlt
    · have hne : ¬ doe / 365 ≤ Y := by
        intro hle
        have := cumDoe_mono (doe / 365) Y (by omega) hle
        omega
      omega
    · have hne : ¬ Y + 1 ≤ doe / 365 := by
        intro hle
        have := cumDoe_mono (Y + 1) (doe / 365) (by omega) hle
        omega
      omega
  · have h399 : Y = 399 := by omega
    subst h399
    have hclamp : (if 399 < doe / 365 then 399 else doe / 365) = 399 := by
      split_ifs <;> omega
    rw [hclamp]
    split_ifs with hlt
    · exact absurd hlt (by omega)
    · rfl

/-- Basic bounds satisfied by the year-of-era finder on a valid
day-of-era. -/
theorem yoeOfDoe_spec (doe : Int) (h0 : 0 ≤ doe) (h1 : doe < 146097) :
    cumDoe (yoeOfDoe doe) ≤ doe ∧ doe - cumDoe (yoeOfDoe doe) ≤ 365 ∧
      0 ≤ yoeOfDoe doe ∧ yoeOfDoe doe ≤ 399 := by
  simp only [yoeOfDoe, cumDoe]
  split_ifs <;> omega

/-- Month/day splitting inverts the `monthDays` cumulative table. -/
theorem civilOfDoy_of (mp d : Int) (h0 : 0 ≤ mp) (h1 : mp ≤ 11) (hd1 : 1 ≤ d)
    (hd2 : d ≤ (if mp = 11 then 29 else monthDays (mp + 1) - monthDays mp)) :
    civilOfDoy (monthDays mp + d - 1) = (if mp < 10 then mp + 3 else mp - 9, d) := by
  interval_cases mp <;>
    simp only [civilOfDoy, monthDays, Prod.mk.injEq] at hd2 ⊢ <;>
    norm_num at hd2 ⊢ <;> omega

/-- Era decomposition of `civilFromDays`. -/
theorem civilFromDays_decomp (era D : Int) (h0 : 0 ≤ D) (h1 : D < 146097) :
    civilFromDays (era * 146097 + D - 719468) = civilOfDoe era D := by
  unfold civilFromDays
  have e0 : era * 146097 + D - 719468 + 719468 = era * 146097 + D := by ring
  rw [e0]
  have e1 : (era * 146097 + D) / 146097 = era := by omega
  rw [e1]
  have e2 : era * 146097 + D - era * 146097 = D := by ring
  rw [e2]

/-- Round-trip builder for January/February dates. -/
theorem build_jan_feb (y m d era yoe : Int) (hm1 : 1 ≤ m) (hm : m ≤ 2)
    (hera : era = (y - 1) / 400) (hyoe : yoe = y - 1 - era * 400)
    (hd1 : 1 ≤ d)
    (hdim : d ≤ if m = 2 then (if isLeapYear y then 29 else 28) else 31) :
    civilOfDoe era (cumDoe yoe + (monthDays (m + 9) + d - 1)) = (y, m, d) := by
  have hyoeR : 0 ≤ yoe ∧ yoe ≤ 399 := by omega
  have hup : yoe ≤ 398 →
      cumDoe yoe + (monthDays (m + 9) + d - 1) < cumDoe (yoe + 1) := by
    intro hle
    simp only [cumDoe, monthDays, isLeapYear] at *
    split_ifs at hdim <;> omega
  have hlo : cumDoe yoe ≤ cumDoe yoe + (monthDays (m + 9) + d - 1) := by
    simp only [monthDays]; omega
  have hmax : cumDoe yoe + (monthDays (m + 9) + d - 1) < 146097 := by
    simp only [cumDoe, monthDays] at *
    split_ifs at hdim <;> omega
  simp only [civilOfDoe]
  rw [yoeOfDoe_eq (cumDoe yoe + (monthDays (m + 9) + d - 1)) yoe hyoeR.1 hyoeR.2
      hlo hup hmax]
  have e : cumDoe yoe + (monthDays (m + 9) + d - 1) - cumDoe yoe =
      monthDays (m + 9) + d - 1 := by ring
  rw [e]
  rw [civilOfDoy_of (m + 9) d (by omega) (by omega) hd1
      (by simp only [monthDays]; split_ifs at hdim ⊢ <;> omega)]
  have h910 : ¬ (m + 9 < 10) := by omega
  rw [if_neg h910]
  dsimp only
  have h2 : m + 9 - 9 ≤ 2 := by omega
  rw [if_pos h2]
  simp only [Prod.mk.injEq, and_true]
  omega

/-- Round-trip builder for March..December dates. -/
theorem build_mar_dec (y m d era yoe : Int) (hm : 2 < m) (hm2 : m ≤ 12)
    (hera : era = y / 400) (hyoe : yoe = y - era * 400)
    (hd1 : 1 ≤ d) (hdim : d ≤ daysInMonthYM y m) :
    civilOfDoe era (cumDoe yoe + (monthDays (m - 3) + d - 1)) = (y, m, d) := by
  have hyoeR : 0 ≤ yoe ∧ yoe ≤ 399 := by omega
  have hdim' : d ≤ 31 := by
    have := daysInMonthYM_bounds y m; omega
  have hup : yoe ≤ 398 →
      cumDoe yoe + (monthDays (m - 3) + d - 1) < cumDoe (yoe + 1) := by
    intro hle
    simp only [cumDoe, monthDays] at *
    omega
  have hlo : cumDoe yoe ≤ cumDoe yoe + (monthDays (m - 3) + d - 1) := by
    simp only [monthDays]; omega
  have hmax : cumDoe yoe + (monthDays (m - 3) + d - 1) < 146097 := by
    simp only [cumDoe, monthDays] at *
    omega
  simp only [civilOfDoe]
  rw [yoeOfDoe_eq (cumDoe yoe + (monthDays (m - 3) + d - 1)) yoe hyoeR.1 hyoeR.2
      hlo hup hmax]
  have e : cumDoe yoe + (monthDays (m - 3) + d - 1) - cumDoe yoe =
      monthDays (m - 3) + d - 1 := by ring
  rw [e]
  rw [civilOfDoy_of (m - 3) d (by omega) (by omega) hd1
      (by interval_cases m <;>
        simp only [monthDays, daysInMonthYM, isLeapYear] at * <;>
        norm_num at hdim ⊢ <;> omega)]
  have h910 : m - 3 < 10 := by omega
  rw [if_pos h910]
  dsimp only
  have h2 : ¬ (m - 3 + 3 ≤ 2) := by omega
  rw [if_neg h2]
  simp only [Prod.mk.injEq, and_true]
  omega

/-- The conversions between epoch days and civil dates are mutually
inverse on valid civil triples. -/
theorem civilFromDays_daysFromCivil (y m d : Int) (hm1 : 1 ≤ m) (hm2 : m ≤ 12)
    (hd1 : 1 ≤ d) (hd2 : d ≤ daysInMonthYM y m) :
    civilFromDays (daysFromCivil y m d) = (y, m, d) := by
  rcases le_or_lt m 2 with hm | hm
  · have harg : daysFromCivil y m d =
        (y - 1) / 400 * 146097 +
          (cumDoe (y - 1 - (y - 1) / 400 * 400) + (monthDays (m + 9) + d - 1)) -
          719468 := by
      simp only [daysFromCivil, if_pos hm]; omega
    have hbound : 0 ≤ cumDoe (y - 1 - (y - 1) / 400 * 400) + (monthDays (m + 9) + d - 1) ∧
        cumDoe (y - 1 - (y - 1) / 400 * 400) + (monthDays (m + 9) + d - 1) < 146097 := by
      simp only [cumDoe, monthDays, daysInMonthYM, isLeapYear] at *
      split_ifs at hd2 <;> omega
    rw [harg, civilFromDays_decomp _ _ hbound.1 hbound.2]
    exact build_jan_feb y m d _ _ hm1 hm rfl rfl hd1
      (by simp only [daysInMonthYM] at hd2; split_ifs at hd2 ⊢ <;> omega)
  · have harg : daysFromCivil y m d =
        y / 400 * 146097 +
          (cumDoe (y - y / 400 * 400) + (monthDays (m - 3) + d - 1)) - 719468 := by
      simp only [daysFromCivil, if_neg (by omega : ¬ m ≤ 2)]; omega
    have hbound : 0 ≤ cumDoe (y - y / 400 * 400) + (monthDays (m - 3) + d - 1) ∧
        cumDoe (y - y / 400 * 400) + (monthDays (m - 3) + d - 1) < 146097 := by
      have := daysInMonthYM_bounds y m
      simp only [cumDoe, monthDays] at *
      omega
    rw [harg, civilFromDays_decomp _ _ hbound.1 hbound.2]
    exact build_mar_dec y m d _ _ hm hm2 rfl rfl hd1 hd2

/-- The first day of the month after `(y, m)` is the day after the last
day of `(y, m)`. -/
theorem daysFromCivil_succ_month (y m : Int) (hm1 : 1 ≤ m) (hm2 : m ≤ 12) :
    daysFromCivil (if m = 12 then y + 1 else y) (if m = 12 then 1 else m + 1) 1 =
      daysFromCivil y m (daysInMonthYM y m) + 1 := by
  interval_cases m <;>
    simp only [daysFromCivil, daysInMonthYM, cumDoe, monthDays, isLeapYear] <;>
    norm_num <;> (try split_ifs) <;> omega

/-- Every epoch day decodes to a month in `[1, 12]`. -/
theorem civilFromDays_month_range (z : Int) :
    1 ≤ (civilFromDays z).2.1 ∧ (civilFromDays z).2.1 ≤ 12 := by
  unfold civilFromDays
  have h0 : 0 ≤ z + 719468 - (z + 719468) / 146097 * 146097 := by omega
  have h1 : z + 719468 - (z + 719468) / 146097 * 146097 < 146097 := by omega
  have hspec := yoeOfDoe_spec _ h0 h1
  simp only [civilOfDoe, civilOfDoy, monthDays]
  split_ifs <;> omega

/-- MakeDay with date 0 and month index `k + 1` lands on the last day of
the (0-based, unbounded) month `k` counted from January of year `y`. -/
theorem makeDay_day_zero (y k : Int) :
    JSDate.makeDay y (k + 1) 0 =
      daysFromCivil (y + k / 12) (k % 12 + 1)
        (daysInMonthYM (y + k / 12) (k % 12 + 1)) ∧
    civilFromDays (JSDate.makeDay y (k + 1) 0) =
      (y + k / 12, k % 12 + 1, daysInMonthYM (y + k / 12) (k % 12 + 1)) := by
  have hm1 : 1 ≤ k % 12 + 1 := by omega
  have hm2 : k % 12 + 1 ≤ 12 := by omega
  have hy : y + (k + 1) / 12 =
      if k % 12 + 1 = 12 then y + k / 12 + 1 else y + k / 12 := by
    split_ifs <;> omega
  have hmth : (k + 1) % 12 + 1 =
      if k % 12 + 1 = 12 then 1 else k % 12 + 1 + 1 := by
    split_ifs <;> omega
  have h1 : JSDate.makeDay y (k + 1) 0 =
      daysFromCivil (y + k / 12) (k % 12 + 1)
        (daysInMonthYM (y + k / 12) (k % 12 + 1)) := by
    unfold JSDate.makeDay
    rw [hy, hmth, daysFromCivil_succ_month (y + k / 12) (k % 12 + 1) hm1 hm2]
    ring
  refine ⟨h1, ?_⟩
  rw [h1]
  exact civilFromDays_daysFromCivil _ _ _ hm1 hm2
    (by have := daysInMonthYM_bounds (y + k / 12) (k % 12 + 1); omega) le_rfl

/-! Part 6: time-of-day and clipping lemmas -/

/-- TimeWithinDay stays in `[0, 86400000)`. -/
theorem timeWithinDay_range (t : Int) :
    0 ≤ JSDate.timeWithinDay t ∧ JSDate.timeWithinDay t < 86400000 := by
  unfold JSDate.timeWithinDay; omega

/-- Day and time-of-day are recovered from an assembled date value. -/
theorem makeDateValue_decomp (d tod : Int) (h0 : 0 ≤ tod) (h1 : tod < 86400000) :
    JSDate.jsDay (JSDate.makeDateValue d tod) = d ∧
      JSDate.timeWithinDay (JSDate.makeDateValue d tod) = tod := by
  unfold JSDate.jsDay JSDate.timeWithinDay JSDate.makeDateValue
  omega

/-- A successful TimeClip returns its input, which is in range. -/
theorem timeClip_some {x y : Int} (h : JSDate.timeClip x = some y) :
    y = x ∧ x.natAbs ≤ 8640000000000000 := by
  unfold JSDate.timeClip at h
  split_ifs at h with hc
  simp only [Option.some.injEq] at h
  exact ⟨h.symm, hc⟩

/-- TimeClip is the identity within range. -/
theorem timeClip_of_le {x : Int} (h : x.natAbs ≤ 8640000000000000) :
    JSDate.timeClip x = some x := by
  unfold JSDate.timeClip
  rw [if_pos h]

/-- Rational floor is the identity on integers. -/
theorem ratFloor_intCast (n : Int) : ratFloor ((n : Int) : ℚ) = n := by
  unfold ratFloor
  norm_num

/-- Rational ceiling is the identity on integers. -/
theorem ratCeil_intCast (n : Int) : ratCeil ((n : Int) : ℚ) = n := by
  unfold ratCeil
  have h : (-((n : Int) : ℚ)) = (((-n : Int) : Int) : ℚ) := by push_cast; ring
  rw [h, ratFloor_intCast]
  ring

/-- Coercing an integer-valued JS number through toInteger is the
identity. -/
theorem toInteger_intCast (n : Int) :
    toInteger (.num (.fin (n : ℚ))) = .fin ((n : Int) : ℚ) := by
  simp only [toInteger, jsIsNaN, jsNegative, jsFloor, jsCeil]
  split_ifs <;> simp_all [ratCeil_intCast, ratFloor_intCast]

/-- The custom rational floor agrees with the mathematical floor. -/
theorem ratFloor_eq_floor (q : ℚ) : ratFloor q = ⌊q⌋ :=
  Rat.floor_def.symm

/-- The custom rational ceiling agrees with the mathematical ceiling. -/
theorem ratCeil_eq_ceil (q : ℚ) : ratCeil q = ⌈q⌉ := by
  rw [ratCeil, ratFloor_eq_floor, Int.floor_neg]
  ring

/-- Canonicalizing an in-range Date instance preserves its time value. -/
theorem toDate_some (t : Int) (ht : t.natAbs ≤ 8640000000000000) :
    DateFns.toDate (.date (some t)) = some t :=
  timeClip_of_le ht

/-- On a finite value, toInteger truncates toward zero: ceiling when
negative, floor otherwise. -/
theorem toInteger_fin (q : ℚ) : toInteger (JSPrim.num (JSNum.fin q)) =
    JSNum.fin (((if q < 0 then ⌈q⌉ else ⌊q⌋) : Int) : ℚ) := by
  simp only [toInteger, jsIsNaN, jsNegative, jsFloor, jsCeil]
  rw [if_neg (by simp)]
  simp only [decide_eq_true_eq]
  split_ifs with h
  · rw [ratCeil_eq_ceil]
  · rw [ratFloor_eq_floor]

/-! Part 7: claim theorems -/

/-- Claim C2: for a valid instant and any amount whose coercion is exactly
zero, `addMonths` returns the instant's time value unchanged: the zero
amount is a true no-op through the early return. -/
theorem addMonths_zero_noop (t : Int) (a : JSPrim)
    (ht : t.natAbs ≤ 8640000000000000)
    (ha : toInteger a = JSNum.fin 0) :
    DateFns.addMonths (.date (some t)) a = some t := by
  simp only [DateFns.addMonths, ha, jsIsNaN]
  simp only [if_true]
  exact toDate_some t ht

/-- Witness for C2 at epoch 0 with an amount that coerces to zero. -/
theorem addMonths_zero_noop_witness :
    DateFns.addMonths (.date (some 0)) (.num (.fin ((0 : Int) : ℚ))) = some 0 :=
  addMonths_zero_noop 0 (.num (.fin ((0 : Int) : ℚ))) (by decide)
    (by simp [toInteger_fin])

/-- Counterexample to claim C5 as stated: the infinite numeric value is
not finite, yet `toInteger` passes it through (the code checks `isNaN`,
not finiteness), so it does not yield NaN. -/
theorem toInteger_posInf_counterexample :
    toInteger (JSPrim.num JSNum.posInf) ≠ JSNum.nan := by decide

/-- Claim C5 amended: `toInteger` yields NaN on null, booleans and NaN;
it passes the infinities through unchanged (rather than mapping them to
NaN); and it truncates finite values toward zero, with floor for values
`≥ 0` and ceiling for negative values, so `toInteger (-5/2) = -2` and
`toInteger (5/2) = 2` while `toInteger true` is NaN. -/
theorem toInteger_spec :
    toInteger JSPrim.null = JSNum.nan ∧
    (∀ b : Bool, toInteger (JSPrim.bool b) = JSNum.nan) ∧
    toInteger (JSPrim.num JSNum.nan) = JSNum.nan ∧
    toInteger (JSPrim.num JSNum.posInf) = JSNum.posInf ∧
    toInteger (JSPrim.num JSNum.negInf) = JSNum.negInf ∧
    (∀ q : ℚ, toInteger (JSPrim.num (JSNum.fin q)) =
      JSNum.fin (((if q < 0 then ⌈q⌉ else ⌊q⌋) : Int) : ℚ)) ∧
    toInteger (JSPrim.num (JSNum.fin (-5 / 2))) = JSNum.fin (-2) ∧
    toInteger (JSPrim.num (JSNum.fin (5 / 2))) = JSNum.fin 2 := by
  have hneg : ((-5 : ℚ) / 2) = -(((5 : Int) : ℚ) / ((2 : ℕ) : ℚ)) := by
    norm_num
  have hpos : ((5 : ℚ) / 2) = ((5 : Int) : ℚ) / ((2 : ℕ) : ℚ) := by
    norm_num
  refine ⟨rfl, fun b => by cases b <;> rfl, rfl, rfl, rfl, toInteger_fin,
    ?_, ?_⟩
  · rw [toInteger_fin]
    rw [if_pos (by norm_num)]
    rw [hneg, Int.ceil_neg, Rat.floor_intCast_div_natCast]
    norm_num
  · rw [toInteger_fin]
    rw [if_neg (by norm_num)]
    rw [hpos, Rat.floor_intCast_div_natCast]
    norm_num

/-- Truncation toward zero of a by-60000 rational division, restated with
integer division so that concrete instances evaluate. -/
theorem floorCeil_div60000 (ms : Int) :
    (if ((ms : Int) : ℚ) / 60000 < 0 then ⌈((ms : Int) : ℚ) / 60000⌉
      else ⌊((ms : Int) : ℚ) / 60000⌋) =
    (if ms < 0 then -((-ms) / 60000) else ms / 60000) := by
  have hc : ((60000 : ℚ)) = ((60000 : ℕ) : ℚ) := by norm_num
  have hfloor : ∀ k : Int, ⌊((k : Int) : ℚ) / 60000⌋ = k / 60000 := by
    intro k
    rw [hc, Rat.floor_intCast_div_natCast]
    norm_num
  have hsign : (((ms : Int) : ℚ) / 60000 < 0) ↔ ms < 0 := by
    rw [div_neg_iff]
    constructor
    · rintro (⟨_, h⟩ | ⟨h, _⟩)
      · exact absurd h (by norm_num)
      · exact_mod_cast h
    · intro h
      exact Or.inr ⟨by exact_mod_cast h, by norm_num⟩
  have hceil : ⌈((ms : Int) : ℚ) / 60000⌉ = -((-ms) / 60000) := by
    have hneg : ((ms : Int) : ℚ) / 60000 = -((((-ms) : Int) : ℚ) / 60000) := by
      push_cast; ring
    rw [hneg, Int.ceil_neg, hfloor]
  by_cases hm : ms < 0
  · rw [if_pos (hsign.mpr hm), if_pos hm, hceil]
  · rw [if_neg (fun hq => hm (hsign.mp hq)), if_neg hm, hfloor]

/-- Helper: on valid inputs, the two difference functions evaluate to the
millisecond difference and its truncated by-60000 quotient. -/
theorem differenceInMinutes_eval (a b : DateInput) (ta tb : Int)
    (hta : DateFns.toDate a = some ta) (htb : DateFns.toDate b = some tb) :
    DateFns.differenceInMilliseconds a b = some (ta - tb) ∧
    DateFns.differenceInMinutes a b =
      some (if ((ta - tb : Int) : ℚ) / 60000 < 0 then
        ⌈((ta - tb : Int) : ℚ) / 60000⌉ else ⌊((ta - tb : Int) : ℚ) / 60000⌋) := by
  have hms : DateFns.differenceInMilliseconds a b = some (ta - tb) := by
    unfold DateFns.differenceInMilliseconds
    rw [hta, htb]
  refine ⟨hms, ?_⟩
  unfold DateFns.differenceInMinutes
  rw [hms]
  simp only [Option.some.injEq]
  rcases lt_trichotomy (((ta - tb : Int) : ℚ) / 60000) 0 with hq | hq | hq
  · rw [if_neg (not_lt.mpr hq.le), if_pos hq, ratCeil_eq_ceil]
  · rw [hq]
    norm_num [ratCeil_eq_ceil]
  · rw [if_pos hq, if_neg (not_lt.mpr hq.le), ratFloor_eq_floor]

/-- Counterexample to claim C4 as stated: on 2014-07-02, the difference
in minutes from 10:20:00 to 12:07:59 is -107 (the interval is negative),
not 12; the spec's example time should read 12:20:00. -/
theorem differenceInMinutes_example_counterexample :
    DateFns.differenceInMinutes (.date (some 1404296400000))
      (.date (some 1404302879000)) ≠ some 12 := by
  have h := differenceInMinutes_eval (.date (some 1404296400000))
    (.date (some 1404302879000)) 1404296400000 1404302879000
    (by decide) (by decide)
  rw [h.2, floorCeil_div60000]
  decide

/-- Claim C4 amended: on 2014-07-02, differenceInMinutes(12:20:00,
12:07:59) = 12 and differenceInMinutes(10:00:00, 10:01:59) = -1, with the
sign following first minus second and truncation toward zero (the spec's
first example reads 10:20:00 where the source example has 12:20:00). -/
theorem differenceInMinutes_examples :
    DateFns.differenceInMinutes (.date (some 1404303600000))
      (.date (some 1404302879000)) = some 12 ∧
    DateFns.differenceInMinutes (.date (some 1404295200000))
      (.date (some 1404295319000)) = some (-1) := by
  have h1 := differenceInMinutes_eval (.date (some 1404303600000))
    (.date (some 1404302879000)) 1404303600000 1404302879000
    (by decide) (by decide)
  have h2 := differenceInMinutes_eval (.date (some 1404295200000))
    (.date (some 1404295319000)) 1404295200000 1404295319000
    (by decide) (by decide)
  rw [h1.2, h2.2, floorCeil_div60000, floorCeil_div60000]
  constructor <;> decide

/-- Claim C6: on valid inputs, `differenceInMinutes` is the millisecond
difference divided by 60000 and truncated toward zero (ceiling when the
quotient is negative, floor otherwise), and a NaN input propagates to a
NaN result. -/
theorem differenceInMinutes_truncates (a b : DateInput) :
    (∀ ta tb : Int, DateFns.toDate a = some ta → DateFns.toDate b = some tb →
      DateFns.differenceInMilliseconds a b = some (ta - tb) ∧
      DateFns.differenceInMinutes a b =
        some (if ((ta - tb : Int) : ℚ) / 60000 < 0 then
          ⌈((ta - tb : Int) : ℚ) / 60000⌉ else ⌊((ta - tb : Int) : ℚ) / 60000⌋)) ∧
    ((DateFns.toDate a = none ∨ DateFns.toDate b = none) →
      DateFns.differenceInMinutes a b = none) := by
  constructor
  · exact fun ta tb hta htb => differenceInMinutes_eval a b ta tb hta htb
  · intro h
    have hnone : DateFns.differenceInMilliseconds a b = none := by
      unfold DateFns.differenceInMilliseconds
      rcases h with h | h
      · rw [h]
      · rw [h]
        rcases DateFns.toDate a with _ | ta <;> rfl
    unfold DateFns.differenceInMinutes
    rw [hnone]

/-- Witness for C6 at two concrete valid instants two minutes apart. -/
theorem differenceInMinutes_truncates_witness :
    DateFns.differenceInMilliseconds (.date (some 120000)) (.date (some 0)) =
      some (120000 - 0) ∧
    DateFns.differenceInMinutes (.date (some 120000)) (.date (some 0)) =
      some (if ((120000 - 0 : Int) : ℚ) / 60000 < 0 then
        ⌈((120000 - 0 : Int) : ℚ) / 60000⌉ else ⌊((120000 - 0 : Int) : ℚ) / 60000⌋) :=
  (differenceInMinutes_truncates (.date (some 120000)) (.date (some 0))).1
    120000 0 (by decide) (by decide)

/-- Claim C7: the canonicalizer maps strings and unrecognized inputs to
an invalid instant without raising, and every arithmetic operation fed an
invalid instant returns an invalid (NaN-bearing) result. -/
theorem invalid_input_propagation :
    (∀ s : String, DateFns.toDate (.str s) = none) ∧
    DateFns.toDate .other = none ∧
    (∀ (d x : DateInput) (a : JSPrim), DateFns.toDate d = none →
      DateFns.differenceInMilliseconds d x = none ∧
      DateFns.differenceInMilliseconds x d = none ∧
      DateFns.differenceInMinutes d x = none ∧
      DateFns.differenceInMinutes x d = none ∧
      DateFns.getMonth d = none ∧
      DateFns.getDay d = none ∧
      DateFns.getDaysInMonth d = none ∧
      DateFns.startOfMonth d = none ∧
      DateFns.endOfMonth d = none ∧
      DateFns.addMonths d a = none) := by
  refine ⟨fun s => rfl, rfl, fun d x a hd => ?_⟩
  have hms1 : DateFns.differenceInMilliseconds d x = none := by
    unfold DateFns.differenceInMilliseconds
    rw [hd]
  have hms2 : DateFns.differenceInMilliseconds x d = none := by
    unfold DateFns.differenceInMilliseconds
    rw [hd]
    rcases DateFns.toDate x with _ | tx <;> rfl
  refine ⟨hms1, hms2, ?_, ?_, ?_, ?_, ?_, ?_, ?_, ?_⟩
  · unfold DateFns.differenceInMinutes
    rw [hms1]
  · unfold DateFns.differenceInMinutes
    rw [hms2]
  · unfold DateFns.getMonth
    rw [hd]; rfl
  · unfold DateFns.getDay
    rw [hd]; rfl
  · unfold DateFns.getDaysInMonth
    rw [hd]; rfl
  · unfold DateFns.startOfMonth
    rw [hd]; rfl
  · unfold DateFns.endOfMonth
    rw [hd]; rfl
  · simp only [DateFns.addMonths, hd]
    rcases ha : toInteger a with _ | _ | _ | q
    · rfl
    · rfl
    · rfl
    · rcases eq_or_ne q 0 with hq | hq
      · rw [hq, if_neg (by simp [jsIsNaN]), if_pos rfl]
      · rw [if_neg (by simp [jsIsNaN]), if_neg (by simp [hq])]
        rfl

/-- Witness for C7: a textual input canonicalizes to an invalid instant
and propagates through `addMonths`. -/
theorem invalid_input_propagation_witness :
    DateFns.addMonths (.str "2014-01-01") (.num (.fin 1)) = none :=
  (invalid_input_propagation.2.2 (.str "2014-01-01") (.date (some 0))
    (.num (.fin 1)) rfl).2.2.2.2.2.2.2.2.2

/-- Helper: with valid ordered endpoints, `isWithinInterval` never raises;
it returns the two JS comparisons, whatever the date canonicalizes to. -/
theorem isWithinInterval_no_error (d : DateInput) (i : DateFns.Interval)
    (ts te : Int) (hs : DateFns.toDate i.start = some ts)
    (he : DateFns.toDate i.«end» = some te) (hle : ts ≤ te) :
    DateFns.isWithinInterval d i =
      Except.ok (jsGE (DateFns.toDate d) (some ts) &&
        jsLE (DateFns.toDate d) (some te)) := by
  simp only [DateFns.isWithinInterval, JSDate.getTime]
  rw [hs, he]
  have hok : jsLE (some ts) (some te) = true := by
    simp only [jsLE, decide_eq_true_eq]
    exact hle
  rw [hok]
  rfl

/-- Helper: `isWithinInterval` on a valid, correctly ordered interval and
a valid date evaluates the inclusive membership test. -/
theorem isWithinInterval_ok_eval (d : DateInput) (i : DateFns.Interval)
    (ts te tx : Int) (hs : DateFns.toDate i.start = some ts)
    (he : DateFns.toDate i.«end» = some te) (hd : DateFns.toDate d = some tx)
    (hle : ts ≤ te) :
    DateFns.isWithinInterval d i = Except.ok (decide (ts ≤ tx ∧ tx ≤ te)) := by
  rw [isWithinInterval_no_error d i ts te hs he hle, hd]
  congr 1
  rw [Bool.decide_and]
  rfl

/-- Claim C3: `isWithinInterval` raises the invalid-interval error exactly
when `start <= end` fails as a JS comparison (including NaN endpoints),
and otherwise returns whether the date lies between the endpoints,
inclusive at both ends. -/
theorem isWithinInterval_spec (d : DateInput) (i : DateFns.Interval) :
    (DateFns.isWithinInterval d i = Except.error "Invalid interval" ↔
      ¬ ∃ ts te : Int, DateFns.toDate i.start = some ts ∧
        DateFns.toDate i.«end» = some te ∧ ts ≤ te) ∧
    (∀ ts te tx : Int, DateFns.toDate i.start = some ts →
      DateFns.toDate i.«end» = some te → DateFns.toDate d = some tx →
      ts ≤ te →
      DateFns.isWithinInterval d i = Except.ok (decide (ts ≤ tx ∧ tx ≤ te))) ∧
    (∀ ts te : Int, DateFns.toDate i.start = some ts →
      DateFns.toDate i.«end» = some te → ts ≤ te →
      (DateFns.toDate d = DateFns.toDate i.start ∨
        DateFns.toDate d = DateFns.toDate i.«end») →
      DateFns.isWithinInterval d i = Except.ok true) := by
  refine ⟨?_, fun ts te tx hs he hd hle =>
    isWithinInterval_ok_eval d i ts te tx hs he hd hle, ?_⟩
  · constructor
    · intro herr
      rintro ⟨ts, te, hs, he, hle⟩
      rw [isWithinInterval_no_error d i ts te hs he hle] at herr
      cases herr
    · intro hcon
      simp only [DateFns.isWithinInterval, JSDate.getTime]
      rcases hs : DateFns.toDate i.start with _ | ts <;>
        rcases he : DateFns.toDate i.«end» with _ | te
      · rfl
      · rfl
      · rfl
      · have hnle : ¬ ts ≤ te := fun hle => hcon ⟨ts, te, hs, he, hle⟩
        have hko : jsLE (some ts) (some te) = false := by
          simp only [jsLE, decide_eq_false_iff_not]
          exact hnle
        rw [hko]
        rfl
  · intro ts te hs he hle hends
    rcases hends with h | h
    · have heval := isWithinInterval_ok_eval d i ts te ts hs he
        (h.trans hs) hle
      rw [heval, decide_eq_true ⟨le_refl ts, hle⟩]
    · have heval := isWithinInterval_ok_eval d i ts te te hs he
        (h.trans he) hle
      rw [heval, decide_eq_true ⟨hle, le_refl te⟩]

/-- Witness for C3: a date equal to the interval start is inside the
interval. -/
theorem isWithinInterval_spec_witness :
    DateFns.isWithinInterval (.date (some 0))
      ⟨.date (some 0), .date (some 86400000)⟩ = Except.ok true :=
  (isWithinInterval_spec (.date (some 0))
    ⟨.date (some 0), .date (some 86400000)⟩).2.2 0 86400000
    (by decide) (by decide) (by decide) (Or.inl rfl)

/-- Claim C10: when the interval endpoints are valid and ordered, an
input date that canonicalizes to an invalid instant makes
`isWithinInterval` return false rather than raise. -/
theorem isWithinInterval_invalid_date (d : DateInput) (i : DateFns.Interval)
    (ts te : Int) (hs : DateFns.toDate i.start = some ts)
    (he : DateFns.toDate i.«end» = some te) (hle : ts ≤ te)
    (hd : DateFns.toDate d = none) :
    DateFns.isWithinInterval d i = Except.ok false := by
  rw [isWithinInterval_no_error d i ts te hs he hle, hd]
  rfl

/-- Witness for C10: a string date inside a valid interval gives false. -/
theorem isWithinInterval_invalid_date_witness :
    DateFns.isWithinInterval (.str "oops")
      ⟨.date (some 0), .date (some 86400000)⟩ = Except.ok false :=
  isWithinInterval_invalid_date (.str "oops")
    ⟨.date (some 0), .date (some 86400000)⟩ 0 86400000
    (by decide) (by decide) (by decide) rfl

/-- Helper: in the clamping case of `addMonths` (original day-of-month at
least the target month's length, result representable), the function
returns the end-of-desired-month date, whose day number decodes to the
last day of the target month and whose time of day is the original's. -/
theorem addMonths_clamp_core (t n te : Int)
    (ht : t.natAbs ≤ 8640000000000000) (hn : n ≠ 0)
    (hclamp : daysInMonthYM
        (JSDate.getFullYearT t + (JSDate.getMonthT t + n) / 12)
        ((JSDate.getMonthT t + n) % 12 + 1) ≤ JSDate.getDateT t)
    (hrange : JSDate.setMonth (some t)
      (some (JSDate.getMonthT t + n + 1)) (some 0) = some te) :
    DateFns.addMonths (.date (some t)) (.num (.fin (n : ℚ))) = some te ∧
    JSDate.timeWithinDay te = JSDate.timeWithinDay t ∧
    civilFromDays (JSDate.jsDay te) =
      (JSDate.getFullYearT t + (JSDate.getMonthT t + n) / 12,
        (JSDate.getMonthT t + n) % 12 + 1,
        daysInMonthYM (JSDate.getFullYearT t + (JSDate.getMonthT t + n) / 12)
          ((JSDate.getMonthT t + n) % 12 + 1)) := by
  have hsm : JSDate.setMonth (some t) (some (JSDate.getMonthT t + n + 1))
      (some 0) =
      JSDate.timeClip (JSDate.makeDateValue
        (JSDate.makeDay (JSDate.getFullYearT t) (JSDate.getMonthT t + n + 1) 0)
        (JSDate.timeWithinDay t)) := rfl
  have hrangeClip := hrange
  rw [hsm] at hrangeClip
  obtain ⟨hte, _⟩ := timeClip_some hrangeClip
  have htod := timeWithinDay_range t
  have hdec := makeDateValue_decomp
    (JSDate.makeDay (JSDate.getFullYearT t) (JSDate.getMonthT t + n + 1) 0)
    (JSDate.timeWithinDay t) htod.1 htod.2
  have hday : JSDate.jsDay te =
      JSDate.makeDay (JSDate.getFullYearT t) (JSDate.getMonthT t + n + 1) 0 := by
    rw [hte]; exact hdec.1
  have htwd : JSDate.timeWithinDay te = JSDate.timeWithinDay t := by
    rw [hte]; exact hdec.2
  have hciv : civilFromDays (JSDate.jsDay te) =
      (JSDate.getFullYearT t + (JSDate.getMonthT t + n) / 12,
        (JSDate.getMonthT t + n) % 12 + 1,
        daysInMonthYM (JSDate.getFullYearT t + (JSDate.getMonthT t + n) / 12)
          ((JSDate.getMonthT t + n) % 12 + 1)) := by
    rw [hday]
    exact (makeDay_day_zero (JSDate.getFullYearT t) (JSDate.getMonthT t + n)).2
  have hdate : JSDate.getDateT te = daysInMonthYM
      (JSDate.getFullYearT t + (JSDate.getMonthT t + n) / 12)
      ((JSDate.getMonthT t + n) % 12 + 1) := by
    unfold JSDate.getDateT
    rw [hciv]
  refine ⟨?_, htwd, hciv⟩
  simp only [DateFns.addMonths, toDate_some t ht, toInteger_intCast n]
  rw [if_neg (by simp [jsIsNaN]), if_neg (by simp [hn])]
  rw [ratFloor_intCast]
  have harg : ((JSDate.getMonth (some t)).bind fun m =>
      Option.map (fun a => m + a + 1) (some n)) =
      some (JSDate.getMonthT t + n + 1) := rfl
  rw [harg, hrange]
  have hge : jsGE (JSDate.getDate (some t)) (JSDate.getDate (some te)) =
      true := by
    simp only [JSDate.getDate, Option.map_some', jsGE, decide_eq_true_eq]
    rw [hdate]
    exact hclamp
  rw [hge]
  rfl

/-- Counterexample to claim C1 as stated: for the valid instant
1970-01-31 and the nonzero amount 120000000 months (ten million years),
the original day 31 is at least the target January's 31 days, yet
`addMonths` returns an invalid date (the target month is beyond the
representable range), not the last day of the target month. -/
theorem addMonths_overflow_counterexample :
    JSDate.getDateT 2592000000 = 31 ∧
    daysInMonthYM (1970 + (0 + 120000000) / 12) ((0 + 120000000) % 12 + 1) =
      31 ∧
    DateFns.addMonths (.date (some 2592000000))
      (.num (.fin ((120000000 : Int) : ℚ))) = none := by
  refine ⟨by decide, by decide, ?_⟩
  simp only [DateFns.addMonths, toDate_some 2592000000 (by decide),
    toInteger_intCast 120000000]
  rw [if_neg (by simp [jsIsNaN]), if_neg (by simp)]
  rw [ratFloor_intCast]
  decide

/-- Claim C1 amended: for a valid instant and nonzero integer amount with
the original day-of-month at least the length of the target month
(original month plus amount), and the target month within the
representable range, `addMonths` returns the last day of the target
month; in particular Jan 31 plus one month gives Feb 28 (or Feb 29 in a
leap year). -/
theorem addMonths_clamps_to_month_end (t n te : Int)
    (ht : t.natAbs ≤ 8640000000000000) (hn : n ≠ 0)
    (hclamp : daysInMonthYM
        (JSDate.getFullYearT t + (JSDate.getMonthT t + n) / 12)
        ((JSDate.getMonthT t + n) % 12 + 1) ≤ JSDate.getDateT t)
    (hrange : JSDate.setMonth (some t)
      (some (JSDate.getMonthT t + n + 1)) (some 0) = some te) :
    DateFns.addMonths (.date (some t)) (.num (.fin (n : ℚ))) = some te ∧
    JSDate.getFullYearT te =
      JSDate.getFullYearT t + (JSDate.getMonthT t + n) / 12 ∧
    JSDate.getMonthT te = (JSDate.getMonthT t + n) % 12 ∧
    JSDate.getDateT te = daysInMonthYM
      (JSDate.getFullYearT t + (JSDate.getMonthT t + n) / 12)
      ((JSDate.getMonthT t + n) % 12 + 1) := by
  obtain ⟨hAdd, htwd, hciv⟩ := addMonths_clamp_core t n te ht hn hclamp hrange
  refine ⟨hAdd, ?_, ?_, ?_⟩
  · have h1 : JSDate.getFullYearT te = (civilFromDays (JSDate.jsDay te)).1 :=
      rfl
    rw [h1, hciv]
  · have h1 : JSDate.getMonthT te =
        (civilFromDays (JSDate.jsDay te)).2.1 - 1 := rfl
    rw [h1, hciv]
    dsimp only
    omega
  · have h1 : JSDate.getDateT te = (civilFromDays (JSDate.jsDay te)).2.2 :=
      rfl
    rw [h1, hciv]

/-- Witness for C1: adding one month to 2014-01-31 clamps to 2014-02-28
(a non-leap year). -/
theorem addMonths_clamps_to_month_end_witness :
    DateFns.addMonths (.date (some 1391126400000))
      (.num (.fin ((1 : Int) : ℚ))) = some 1393545600000 :=
  (addMonths_clamps_to_month_end 1391126400000 1 1393545600000
    (by decide) (by decide) (by decide) (by decide)).1

/-- Counterexample to claim C9 as stated: for the valid instant
1970-03-31 and nonzero amount 240000000 months the clamping condition
holds, yet the result is an invalid date with no hour field at all
(the target month overflows the representable range). -/
theorem addMonths_time_counterexample :
    JSDate.getDateT 7689600000 = 31 ∧
    daysInMonthYM (1970 + (2 + 240000000) / 12) ((2 + 240000000) % 12 + 1) ≤
      31 ∧
    DateFns.addMonths (.date (some 7689600000))
      (.num (.fin ((240000000 : Int) : ℚ))) = none := by
  refine ⟨by decide, by decide, ?_⟩
  simp only [DateFns.addMonths, toDate_some 7689600000 (by decide),
    toInteger_intCast 240000000]
  rw [if_neg (by simp [jsIsNaN]), if_neg (by simp)]
  rw [ratFloor_intCast]
  decide

/-- Claim C9 amended: in the clamping case of `addMonths` (with a
representable target month), the returned instant keeps the original
hour, minute, second and millisecond fields: clamping lands on the last
day of the target month at the original time of day, not at
23:59:59.999. -/
theorem addMonths_clamp_keeps_time (t n te : Int)
    (ht : t.natAbs ≤ 8640000000000000) (hn : n ≠ 0)
    (hclamp : daysInMonthYM
        (JSDate.getFullYearT t + (JSDate.getMonthT t + n) / 12)
        ((JSDate.getMonthT t + n) % 12 + 1) ≤ JSDate.getDateT t)
    (hrange : JSDate.setMonth (some t)
      (some (JSDate.getMonthT t + n + 1)) (some 0) = some te) :
    DateFns.addMonths (.date (some t)) (.num (.fin (n : ℚ))) = some te ∧
    JSDate.getHoursT te = JSDate.getHoursT t ∧
    JSDate.getMinutesT te = JSDate.getMinutesT t ∧
    JSDate.getSecondsT te = JSDate.getSecondsT t ∧
    JSDate.getMillisecondsT te = JSDate.getMillisecondsT t := by
  obtain ⟨hAdd, htwd, _⟩ := addMonths_clamp_core t n te ht hn hclamp hrange
  refine ⟨hAdd, ?_, ?_, ?_, ?_⟩
  · unfold JSDate.getHoursT
    rw [htwd]
  · unfold JSDate.getMinutesT
    rw [htwd]
  · unfold JSDate.getSecondsT
    rw [htwd]
  · unfold JSDate.getMillisecondsT
    rw [htwd]

/-- Witness for C9: adding one month to 2000-01-31T01:00 clamps to
2000-02-29T01:00 (a leap year), keeping the one-o'clock time. -/
theorem addMonths_clamp_keeps_time_witness :
    DateFns.addMonths (.date (some 949280400000))
      (.num (.fin ((1 : Int) : ℚ))) = some 951786000000 :=
  (addMonths_clamp_keeps_time 949280400000 1 951786000000
    (by decide) (by decide) (by decide) (by decide)).1

/-- Counterexample to claim C8 as stated: for the valid minimal instant
(-8.64e15, the year -271821), `endOfMonth` is still representable but
`startOfMonth` of it falls below the representable range and is clipped
to an invalid date, so the round trip does not produce day 1. -/
theorem startOfMonth_endOfMonth_clip_counterexample :
    (-8640000000000000 : Int).natAbs ≤ 8640000000000000 ∧
    JSDate.getDate (DateFns.startOfMonth
      (.date (DateFns.endOfMonth (.date (some (-8640000000000000)))))) ≠
      some 1 := by decide

/-- Claim C8 amended: for every valid instant whose start-of-month of
end-of-month stays within the representable range, the result has the
same year and month as the input, day-of-month 1, and local time
00:00:00.000. -/
theorem startOfMonth_endOfMonth_roundtrip (t ts : Int)
    (ht : t.natAbs ≤ 8640000000000000)
    (hs : DateFns.startOfMonth (.date (DateFns.endOfMonth (.date (some t)))) =
      some ts) :
    JSDate.getFullYearT ts = JSDate.getFullYearT t ∧
    JSDate.getMonthT ts = JSDate.getMonthT t ∧
    JSDate.getDateT ts = 1 ∧
    JSDate.getHoursT ts = 0 ∧ JSDate.getMinutesT ts = 0 ∧
    JSDate.getSecondsT ts = 0 ∧ JSDate.getMillisecondsT ts = 0 := by
  have hM0range : 0 ≤ JSDate.getMonthT t ∧ JSDate.getMonthT t ≤ 11 := by
    have := civilFromDays_month_range (JSDate.jsDay t)
    unfold JSDate.getMonthT
    omega
  have htod := timeWithinDay_range t
  have hmk := makeDay_day_zero (JSDate.getFullYearT t) (JSDate.getMonthT t)
  have hM012 : JSDate.getMonthT t / 12 = 0 ∧
      JSDate.getMonthT t % 12 = JSDate.getMonthT t := by omega
  have h1 : DateFns.endOfMonth (.date (some t)) =
      JSDate.setHours (JSDate.timeClip (JSDate.makeDateValue
        (JSDate.makeDay (JSDate.getFullYearT t) (JSDate.getMonthT t + 1) 0)
        (JSDate.timeWithinDay t))) (some 23) (some 59) (some 59) (some 999) := by
    simp only [DateFns.endOfMonth, toDate_some t ht]
    rfl
  rcases hclip1 : JSDate.timeClip (JSDate.makeDateValue
      (JSDate.makeDay (JSDate.getFullYearT t) (JSDate.getMonthT t + 1) 0)
      (JSDate.timeWithinDay t)) with _ | t1
  · rw [hclip1] at h1
    rw [h1] at hs
    exact Option.noConfusion hs
  · obtain ⟨ht1, _⟩ := timeClip_some hclip1
    have hdec1 := makeDateValue_decomp
      (JSDate.makeDay (JSDate.getFullYearT t) (JSDate.getMonthT t + 1) 0)
      (JSDate.timeWithinDay t) htod.1 htod.2
    have hday1 : JSDate.jsDay t1 =
        JSDate.makeDay (JSDate.getFullYearT t) (JSDate.getMonthT t + 1) 0 := by
      rw [ht1]; exact hdec1.1
    rw [hclip1] at h1
    have h2 : JSDate.setHours (some t1) (some 23) (some 59) (some 59)
        (some 999) =
        JSDate.timeClip (JSDate.makeDateValue (JSDate.jsDay t1) 86399999) := by
      show JSDate.timeClip (JSDate.makeDateValue (JSDate.jsDay t1)
        (JSDate.makeTime 23 59 59 999)) = _
      norm_num [JSDate.makeTime]
    rw [h2] at h1
    rcases hclip2 : JSDate.timeClip
        (JSDate.makeDateValue (JSDate.jsDay t1) 86399999) with _ | t2
    · rw [hclip2] at h1
      rw [h1] at hs
      exact Option.noConfusion hs
    · obtain ⟨ht2, ht2b⟩ := timeClip_some hclip2
      rw [hclip2] at h1
      rw [h1] at hs
      have htd2 : DateFns.toDate (.date (some t2)) = some t2 :=
        toDate_some t2 (by rw [ht2]; exact ht2b)
      have hdec2 := makeDateValue_decomp (JSDate.jsDay t1) 86399999
        (by norm_num) (by norm_num)
      have hday2 : JSDate.jsDay t2 =
          JSDate.makeDay (JSDate.getFullYearT t) (JSDate.getMonthT t + 1) 0 := by
        rw [ht2, hdec2.1, hday1]
      have hciv2 : civilFromDays (JSDate.jsDay t2) =
          (JSDate.getFullYearT t, JSDate.getMonthT t + 1,
            daysInMonthYM (JSDate.getFullYearT t) (JSDate.getMonthT t + 1)) := by
        rw [hday2, hmk.2]
        rw [hM012.1, hM012.2]
        norm_num
      have hY2 : JSDate.getFullYearT t2 = JSDate.getFullYearT t := by
        have h0 : JSDate.getFullYearT t2 =
            (civilFromDays (JSDate.jsDay t2)).1 := rfl
        rw [h0, hciv2]
      have hM2 : JSDate.getMonthT t2 = JSDate.getMonthT t := by
        have h0 : JSDate.getMonthT t2 =
            (civilFromDays (JSDate.jsDay t2)).2.1 - 1 := rfl
        rw [h0, hciv2]
        dsimp only
        omega
      have h3 : DateFns.startOfMonth (.date (some t2)) =
          JSDate.setHours (JSDate.setDate (some t2) (some 1)) (some 0) (some 0)
            (some 0) (some 0) := by
        simp only [DateFns.startOfMonth, htd2]
      have h4 : JSDate.setDate (some t2) (some 1) =
          JSDate.timeClip (JSDate.makeDateValue
            (JSDate.makeDay (JSDate.getFullYearT t2) (JSDate.getMonthT t2) 1)
            (JSDate.timeWithinDay t2)) := rfl
      have hmd1 : JSDate.makeDay (JSDate.getFullYearT t) (JSDate.getMonthT t)
          1 = daysFromCivil (JSDate.getFullYearT t) (JSDate.getMonthT t + 1)
            1 := by
        unfold JSDate.makeDay
        rw [hM012.1, hM012.2]
        ring_nf
      have htwd2 : JSDate.timeWithinDay t2 = 86399999 := by
        rw [ht2, hdec2.2]
      rw [h3, h4, hY2, hM2, hmd1, htwd2] at hs
      rcases hclip3 : JSDate.timeClip (JSDate.makeDateValue
          (daysFromCivil (JSDate.getFullYearT t) (JSDate.getMonthT t + 1) 1)
          86399999) with _ | t3
      · rw [hclip3] at hs
        exact Option.noConfusion hs
      · obtain ⟨ht3, _⟩ := timeClip_some hclip3
        rw [hclip3] at hs
        have hdec3 := makeDateValue_decomp
          (daysFromCivil (JSDate.getFullYearT t) (JSDate.getMonthT t + 1) 1)
          86399999 (by norm_num) (by norm_num)
        have h5 : JSDate.setHours (some t3) (some 0) (some 0) (some 0)
            (some 0) =
            JSDate.timeClip (JSDate.makeDateValue (JSDate.jsDay t3) 0) := by
          show JSDate.timeClip (JSDate.makeDateValue (JSDate.jsDay t3)
            (JSDate.makeTime 0 0 0 0)) = _
          norm_num [JSDate.makeTime]
        rw [h5] at hs
        have hday3 : JSDate.jsDay t3 = daysFromCivil (JSDate.getFullYearT t)
            (JSDate.getMonthT t + 1) 1 := by
          rw [ht3, hdec3.1]
        rw [hday3] at hs
        obtain ⟨hts, _⟩ := timeClip_some hs
        have hdecS := makeDateValue_decomp
          (daysFromCivil (JSDate.getFullYearT t) (JSDate.getMonthT t + 1) 1)
          0 (by norm_num) (by norm_num)
        have hdayS : JSDate.jsDay ts = daysFromCivil (JSDate.getFullYearT t)
            (JSDate.getMonthT t + 1) 1 := by
          rw [hts, hdecS.1]
        have htwdS : JSDate.timeWithinDay ts = 0 := by
          rw [hts, hdecS.2]
        have hcivS : civilFromDays (JSDate.jsDay ts) =
            (JSDate.getFullYearT t, JSDate.getMonthT t + 1, 1) := by
          rw [hdayS]
          exact civilFromDays_daysFromCivil _ _ 1 (by omega) (by omega)
            le_rfl (by
              have := daysInMonthYM_bounds (JSDate.getFullYearT t)
                (JSDate.getMonthT t + 1)
              omega)
        refine ⟨?_, ?_, ?_, ?_, ?_, ?_, ?_⟩
        · have h0 : JSDate.getFullYearT ts =
              (civilFromDays (JSDate.jsDay ts)).1 := rfl
          rw [h0, hcivS]
        · have h0 : JSDate.getMonthT ts =
              (civilFromDays (JSDate.jsDay ts)).2.1 - 1 := rfl
          rw [h0, hcivS]
          dsimp only
          omega
        · have h0 : JSDate.getDateT ts =
              (civilFromDays (JSDate.jsDay ts)).2.2 := rfl
          rw [h0, hcivS]
        · unfold JSDate.getHoursT
          rw [htwdS]
          decide
        · unfold JSDate.getMinutesT
          rw [htwdS]
          decide
        · unfold JSDate.getSecondsT
          rw [htwdS]
          decide
        · unfold JSDate.getMillisecondsT
          rw [htwdS]
          decide

/-- Witness for C8 at the epoch instant: start of month of end of month
of 1970-01-01 is 1970-01-01 again. -/
theorem startOfMonth_endOfMonth_roundtrip_witness :
    JSDate.getFullYearT 0 = JSDate.getFullYearT 0 ∧
    JSDate.getMonthT 0 = JSDate.getMonthT 0 ∧
    JSDate.getDateT 0 = 1 ∧
    JSDate.getHoursT 0 = 0 ∧ JSDate.getMinutesT 0 = 0 ∧
    JSDate.getSecondsT 0 = 0 ∧ JSDate.getMillisecondsT 0 = 0 :=
  startOfMonth_endOfMonth_roundtrip 0 0 (by decide) (by decide)

end GasDateFns
